import Mathlib

/-
Shallow embedding of the geometry-scanning core of the SSURGO-QA tools
QA_SliverFinder.py and QA_VertexProblems.py, together with proofs about
the claims of the specification.

Coordinates and measurements are idealised as real numbers; Python
exceptions are modelled as Option results; Python dictionaries keyed by a
running counter are modelled as lists in insertion order.
-/

/-- A vertex: an ordered pair of real coordinates, as read from the host. -/
abbrev Point : Type := ℝ × ℝ

/-- Euclidean distance between two points, as computed in
GetAngleFromPoints via math.sqrt(dx**2 + dy**2) and in QA_VertexProblems
via math.hypot. -/
noncomputable def distPts (p q : Point) : ℝ :=
  Real.sqrt ((q.1 - p.1) ^ 2 + (q.2 - p.2) ^ 2)

/-- Rounding a real to the nearest integer, as in int(round(x, 0)).
Python rounds ties to even; ties never arise in the theorems below. -/
noncomputable def pyRound (x : ℝ) : ℤ := round x

/-- Rounding to 10 decimal places, as in round(p, 10). -/
noncomputable def round10 (x : ℝ) : ℝ := (round (x * 10 ^ 10) : ℤ) / 10 ^ 10

/-- math.degrees: radians to degrees. -/
noncomputable def degreesOf (x : ℝ) : ℝ := x * 180 / Real.pi

/-- The final stage of GetAngleFromPoints: math.acos applied to the
(rounded) law-of-cosines cosine, converted to whole degrees.  A value
outside [-1, 1] makes math.acos raise a domain error, which the except
clause of the source turns into the return value -1. -/
noncomputable def angleFromCos (p : ℝ) : ℤ :=
  if p < -1 ∨ 1 < p then -1 else pyRound (degreesOf (Real.arccos p))

/-- The law-of-cosines cosine value (mAB**2 + mBC**2 - mCA**2) / (2 * mAB * mBC)
computed by GetAngleFromPoints before rounding. -/
noncomputable def rawCos (A B C : Point) : ℝ :=
  ((distPts A B) ^ 2 + (distPts B C) ^ 2 - (distPts C A) ^ 2) /
    (2 * distPts A B * distPts B C)

/-- GetAngleFromPoints of QA_SliverFinder.py: the angle at vertex iPnt+1
from the three consecutive vertices pntList[iPnt..iPnt+2].  An index out
of range raises IndexError, which the except clause turns into -1; a
zero-length side yields 0. -/
noncomputable def GetAngleFromPoints (pntList : List Point) (iPnt : ℕ) : ℤ :=
  if iPnt + 2 < pntList.length then
    let A := pntList.getD iPnt (0, 0)
    let B := pntList.getD (iPnt + 1) (0, 0)
    let C := pntList.getD (iPnt + 2) (0, 0)
    if distPts A B = 0 ∨ distPts B C = 0 then 0
    else angleFromCos (round10 (rawCos A B C))
  else -1

/-- The angle-scanning loop of ProcessLayer in QA_SliverFinder.py: for
iPnt in range(len(pntList) - 2), compute the angle and keep (index, angle)
exactly when the angle is at most minAngle.  List order is discovery
order, the order in which the source assigns dictionary keys iErr. -/
noncomputable def angleScanIdx (pntList : List Point) (minAngle : ℤ) :
    List (ℕ × ℤ) :=
  (List.range (pntList.length - 2)).filterMap (fun i =>
    if GetAngleFromPoints pntList i ≤ minAngle then
      some (i, GetAngleFromPoints pntList i)
    else none)

/-- An entry of the dLines dictionary: the three vertices that produced
the defect, the owning polygon id, and the computed integer angle. -/
structure AngleDefect where
  pts : Point × Point × Point
  polyId : ℕ
  angle : ℤ

/-- The dLines dictionary built for one polygon, in discovery order. -/
noncomputable def angleDefectsOf (fid : ℕ) (pntList : List Point)
    (minAngle : ℤ) : List AngleDefect :=
  (angleScanIdx pntList minAngle).map (fun ia =>
    ⟨(pntList.getD ia.1 (0, 0), pntList.getD (ia.1 + 1) (0, 0),
      pntList.getD (ia.1 + 2) (0, 0)), fid, ia.2⟩)

/-- Collecting the vertices of one geometry part, as the inner `for pnt in
part` loop does: vertices are appended until a null vertex (the interior
ring separator) is met, which stops the walk of that part at once. -/
def collectPts : List (Option Point) → List Point
  | [] => []
  | none :: _ => []
  | some p :: rest => p :: collectPts rest

/-- The `for part in feat` loop of QA_SliverFinder.py.  The working list
pntList is re-created for every part, each part gets pntList[1] appended
as the wrap-around vertex (an IndexError -- fewer than two collected
vertices -- aborts the whole polygon, returning none), and after the loop
the surviving list is that of the last part. -/
def lastWrapped : List (List (Option Point)) → Option (List Point)
  | [] => none
  | part :: rest =>
    let c := collectPts part
    if 2 ≤ c.length then
      match rest with
      | [] => some (c ++ [c.getD 1 (0, 0)])
      | _ :: _ => lastWrapped rest
    else none

/-- One input polygon feature of QA_SliverFinder.py: its object id and its
geometry, none standing for NULL geometry; each part is a vertex stream in
which none marks the start of an interior ring. -/
structure SliverFeature where
  fid : ℕ
  shape : Option (List (List (Option Point)))

/-- A polygon is bad when its geometry is NULL or its part count is 0;
ProcessLayer appends such fids to badPolys. -/
def isBadPoly (f : SliverFeature) : Bool :=
  match f.shape with
  | none => true
  | some parts => parts.isEmpty

/-- The dLines entries contributed by a single feature: nothing for bad
geometry (handled through badPolys), nothing when a part raises IndexError
(the per-row except swallows it after a message), otherwise the angle
defects of the surviving vertex list. -/
noncomputable def sliverFeatureDefects (minAngle : ℤ) (f : SliverFeature) :
    List AngleDefect :=
  match f.shape with
  | none => []
  | some parts =>
    if parts.isEmpty then []
    else
      match lastWrapped parts with
      | none => []
      | some pntList => angleDefectsOf f.fid pntList minAngle

/-- The stable ascending sort by angle performed by
OrderedDict(sorted(dTest.items(), key=lambda x: x[1])): Python's sorted is
specified to be stable, and insertion sort with a non-strict comparison is
a stable sort. -/
def sortByAngle (l : List (ℕ × ℤ)) : List (ℕ × ℤ) :=
  List.insertionSort (fun a b => a.2 ≤ b.2) l

/-- The dTest dictionary: key (discovery index) paired with angle. -/
def enumAngles (flagged : List AngleDefect) : List (ℕ × ℤ) :=
  flagged.enum.map (fun ie => (ie.1, ie.2.angle))

/-- Materialization order of the angle-defect output: iterate the keys of
dAngles (dTest sorted by angle) and emit the dLines entry of each key. -/
noncomputable def materializeAngles (flagged : List AngleDefect) :
    List AngleDefect :=
  (sortByAngle (enumAngles flagged)).filterMap (fun ka => flagged.get? ka.1)

/-- Observable outcome of one run of ProcessLayer in QA_SliverFinder.py. -/
structure SliverRunResult where
  success : Bool
  badPolys : List ℕ
  flagged : List AngleDefect
  materialized : Option (List AngleDefect)

/-- ProcessLayer of QA_SliverFinder.py: scan every feature, collecting bad
polygons and angle defects; if any polygon was bad, report failure and
write nothing; otherwise write the defects sorted by angle (nothing to
write when no defect was found). -/
noncomputable def processSliverRun (features : List SliverFeature)
    (minAngle : ℤ) : SliverRunResult :=
  let badPolys := (features.filter (fun f => isBadPoly f)).map (fun f => f.fid)
  let flagged := features.flatMap (sliverFeatureDefects minAngle)
  if badPolys.isEmpty then
    ⟨true, badPolys, flagged,
      if flagged.isEmpty then none else some (materializeAngles flagged)⟩
  else ⟨false, badPolys, flagged, none⟩

/-- The datum gate of the main block of QA_SliverFinder.py: a datum
mismatch is reported (severity 2) but the script continues and
ProcessLayer still runs.  The first component records whether the mismatch
message was emitted. -/
noncomputable def sliverMain (inputDatum outputDatum : String)
    (features : List SliverFeature) (minAngle : ℤ) : Bool × SliverRunResult :=
  (decide (inputDatum ≠ outputDatum), processSliverRun features minAngle)

/-- A flagged short segment of QA_VertexProblems.py: the midpoint of the
segment, the owning polygon id, and the segment length. -/
structure SegDefect where
  midPnt : Point
  polyId : ℕ
  length : ℝ

/-- One row of the QA_VertexStats table:
POLYID, ACRES, VERTICES, AVI, MIN_DIST, MULTIPART. -/
structure StatsRow where
  polyId : ℕ
  acres : ℝ
  vertices : ℕ
  avi : ℝ
  minDist : ℝ
  multipart : ℕ

/-- The `for pnt in part` loop of ProcessLayer in QA_VertexProblems.py:
a two-element window is maintained (append, measure when the window holds
two points, then pop the first); math.hypot of the coordinate differences
is the segment length; the minimum length and the flagged midpoints are
threaded through; a null vertex (interior ring) stops the part at once. -/
noncomputable def vpLoop (fid : ℕ) (minDist : ℝ) :
    List Point → ℝ → List SegDefect → List (Option Point) → ℝ × List SegDefect
  | _, iSeg, defs, [] => (iSeg, defs)
  | _, iSeg, defs, none :: _ => (iSeg, defs)
  | pntList, iSeg, defs, some pt :: rest =>
    let pl := pntList ++ [pt]
    if pl.length = 2 then
      let p0 := pl.getD 0 (0, 0)
      let p1 := pl.getD 1 (0, 0)
      let d := distPts p0 p1
      let iSeg2 := if d < iSeg then d else iSeg
      let defs2 :=
        if d < minDist then
          defs ++ [⟨((p0.1 + p1.1) / 2, (p0.2 + p1.2) / 2), fid, d⟩]
        else defs
      vpLoop fid minDist (pl.drop 1) iSeg2 defs2 rest
    else vpLoop fid minDist pl iSeg defs rest

/-- The `for part in feat` loop of QA_VertexProblems.py: every part is
walked with a fresh window while the running minimum and the flagged
midpoints persist across parts. -/
noncomputable def vpParts (fid : ℕ) (minDist : ℝ) :
    List (List (Option Point)) → ℝ → List SegDefect → ℝ × List SegDefect
  | [], iSeg, defs => (iSeg, defs)
  | part :: rest, iSeg, defs =>
    let r := vpLoop fid minDist [] iSeg defs part
    vpParts fid minDist rest r.1 r.2

/-- feat.pointCount: the number of vertices of the feature. -/
def vpPointCount (parts : List (List (Option Point))) : ℕ :=
  (parts.map (fun part => (part.filterMap id).length)).sum

/-- The consecutive vertex pairs of a vertex list. -/
def consecPairs : List Point → List (Point × Point)
  | a :: b :: rest => (a, b) :: consecPairs (b :: rest)
  | _ => []

/-- The defect decision for one pair of consecutive vertices: flagged
exactly when the distance is strictly below the threshold, with the
arithmetic mean of the endpoints as recorded point. -/
noncomputable def segFlag (fid : ℕ) (minDist : ℝ) (pq : Point × Point) :
    Option SegDefect :=
  if distPts pq.1 pq.2 < minDist then
    some ⟨((pq.1.1 + pq.2.1) / 2, (pq.1.2 + pq.2.2) / 2), fid,
      distPts pq.1 pq.2⟩
  else none

/-- Specification-side description of the segment evaluator: a defect is
recorded for a pair of consecutive collected vertices exactly when their
distance is strictly below the threshold, and the recorded point is the
arithmetic mean of the two endpoints. -/
noncomputable def segDefectsSpec (fid : ℕ) (minDist : ℝ)
    (part : List (Option Point)) : List SegDefect :=
  (consecPairs (collectPts part)).filterMap (segFlag fid minDist)

/-- str.lower() restricted to the ASCII casing the unit names use. -/
def pyToLower (s : String) : String := String.mk (s.toList.map Char.toLower)

/-- str.replace(pat, rep): replace non-overlapping occurrences from the
left.  The fuel argument (the length of the remaining input) only
witnesses termination. -/
def replaceFuel (pat rep : List Char) : ℕ → List Char → List Char
  | 0, s => s
  | _ + 1, [] => []
  | n + 1, c :: rest =>
    if pat ≠ [] ∧ pat.isPrefixOf (c :: rest) then
      rep ++ replaceFuel pat rep n ((c :: rest).drop pat.length)
    else c :: replaceFuel pat rep n rest

/-- str.replace on strings. -/
def pyReplace (s pat rep : String) : String :=
  String.mk (replaceFuel pat.toList rep.toList s.toList.length s.toList)

/-- The unit normalization of the main blocks:
outputSR.linearUnitName.lower().replace("foot", "feet").replace("meter", "meters"). -/
def normalizeUnits (s : String) : String :=
  pyReplace (pyReplace (pyToLower s) ("foot") ("feet")) ("meter") ("meters")

/-- The acreage computation of ProcessLayer in QA_VertexProblems.py:
area/4046.85643 when theUnits is "meters", area/43560.0 when theUnits is
"feet_us"; any other value makes ProcessLayer report an error and return
False, modelled as none. -/
noncomputable def acresOf (area : ℝ) (theUnits : String) : Option ℝ :=
  if theUnits = "meters" then some (area / 4046.85643)
  else if theUnits = "feet_us" then some (area / 43560.0)
  else none

/-- One input polygon feature of QA_VertexProblems.py, with the host
supplied SHAPE@AREA and SHAPE@LENGTH values. -/
structure VPFeature where
  fid : ℕ
  shape : Option (List (List (Option Point)))
  area : ℝ
  perimeter : ℝ

/-- Processing of a single polygon record in ProcessLayer of
QA_VertexProblems.py.  defs0 is the incoming dPoints accumulator.  none
models the paths on which the record makes ProcessLayer stop returning
False: NULL geometry (TypeError on the None area), an unknown unit
(explicit return False), and a zero vertex count (ZeroDivisionError on
the AVI statistic, which is what a zero-part polygon runs into after its
bad-geometry message). -/
noncomputable def processVPFeature (minDist : ℝ) (theUnits : String)
    (defs0 : List SegDefect) (f : VPFeature) :
    Option (StatsRow × List SegDefect) :=
  match f.shape with
  | none => none
  | some parts =>
    let iPartCnt := if parts.length = 1 then 0 else parts.length
    let iPnts := vpPointCount parts
    let r := vpParts f.fid minDist parts 1000000 defs0
    match acresOf f.area theUnits with
    | none => none
    | some acres =>
      if iPnts = 0 then none
      else some (⟨f.fid, acres, iPnts, f.perimeter / (iPnts : ℝ), r.1,
        iPartCnt⟩, r.2)

/-- Observable outcome of one run of ProcessLayer in QA_VertexProblems.py.
Statistics rows are inserted into the already created table while the scan
runs, so rows inserted before a failure remain materialized. -/
structure VPRunResult where
  success : Bool
  stats : List StatsRow
  flaggedPts : List SegDefect
  materialized : Option (List SegDefect)

/-- The feature loop of ProcessLayer in QA_VertexProblems.py: one stats
row is inserted per successfully scanned polygon; the first failing
polygon aborts the loop (the rows already inserted stay); on completion
the flagged midpoints are materialized when an output layer was requested
and at least one defect was found. -/
noncomputable def vpRunGo (minDist : ℝ) (theUnits outLayer : String) :
    List VPFeature → List StatsRow → List SegDefect → VPRunResult
  | [], acc, defs =>
    ⟨true, acc, defs,
      if outLayer ≠ "" ∧ defs.isEmpty = false then some defs else none⟩
  | f :: rest, acc, defs =>
    match processVPFeature minDist theUnits defs f with
    | none => ⟨false, acc, defs, none⟩
    | some rd => vpRunGo minDist theUnits outLayer rest (acc ++ [rd.1]) rd.2

/-- ProcessLayer of QA_VertexProblems.py over a feature list. -/
noncomputable def processVPRun (minDist : ℝ) (theUnits outLayer : String)
    (features : List VPFeature) : VPRunResult :=
  vpRunGo minDist theUnits outLayer features [] []

/-- The datum gate of the main block of QA_VertexProblems.py: on a datum
mismatch the script reports and calls exit() before ProcessLayer ever
runs, modelled as none. -/
noncomputable def vertexMain (inputDatum outputDatum : String)
    (minDist : ℝ) (theUnits outLayer : String) (features : List VPFeature) :
    Option VPRunResult :=
  if inputDatum ≠ outputDatum then none
  else some (processVPRun minDist theUnits outLayer features)

/-- The output ordering the spec promises for angle defects: strictly
ascending angle, with ties broken by discovery key. -/
def angleOrd (a b : ℕ × ℤ) : Prop :=
  a.2 < b.2 ∨ (a.2 = b.2 ∧ a.1 < b.1)

/-- Concrete vertex (0, 0). -/
noncomputable def q00 : Point := (0, 0)

/-- Concrete vertex (1, 0). -/
noncomputable def q10 : Point := (1, 0)

/-- Concrete vertex (1, 1). -/
noncomputable def q11 : Point := (1, 1)

/-- Concrete vertex (0, 1). -/
noncomputable def q01 : Point := (0, 1)

/-- Concrete vertex (5, 0). -/
noncomputable def q50 : Point := (5, 0)

/-- A degenerate triangle part whose two sliver angles are 0 degrees. -/
noncomputable def partP1 : List (Option Point) := [some q00, some q10, some q00]

/-- A closed unit square part: every interior angle is 90 degrees. -/
noncomputable def partSquare : List (Option Point) :=
  [some q00, some q10, some q11, some q01, some q00]

/-- partP1 after collection and wrap-around. -/
noncomputable def wrapP1 : List Point := [q00, q10, q00, q10]

/-- partSquare after collection and wrap-around. -/
noncomputable def wrapSquare : List Point := [q00, q10, q11, q01, q00, q10]

/-- A concrete two-part feature for QA_VertexProblems.py. -/
noncomputable def gMulti : VPFeature := ⟨4, some [[some q00], [some q10]], 1, 1⟩

/-- The four defects of the ordering example, discovered with angles
30, 10, 45, 10 in that order. -/
noncomputable def e30 : AngleDefect := ⟨(q00, q00, q00), 1, 30⟩

/-- Second discovered defect of the ordering example, angle 10. -/
noncomputable def e10a : AngleDefect := ⟨(q00, q00, q00), 2, 10⟩

/-- Third discovered defect of the ordering example, angle 45. -/
noncomputable def e45 : AngleDefect := ⟨(q00, q00, q00), 3, 45⟩

/-- Fourth discovered defect of the ordering example, angle 10. -/
noncomputable def e10b : AngleDefect := ⟨(q00, q00, q00), 4, 10⟩

/-- The statistics row produced for the one-vertex polygon g1. -/
noncomputable def row1 : StatsRow := ⟨1, 1, 1, 3, 1000000, 0⟩

/-- A well-formed one-vertex polygon of one acre. -/
noncomputable def g1 : VPFeature := ⟨1, some [[some q00]], 4046.85643, 3⟩

/-- A zero-part polygon. -/
noncomputable def gBad : VPFeature := ⟨2, some [], 0, 0⟩

/-- A well-formed polygon that follows the zero-part polygon. -/
noncomputable def g2 : VPFeature := ⟨3, some [[some q00]], 1, 1⟩

/-- The squared distance evaluates to the sum of coordinate squares. -/
theorem distPts_sq (p q : Point) :
    (distPts p q) ^ 2 = (q.1 - p.1) ^ 2 + (q.2 - p.2) ^ 2 :=
  Real.sq_sqrt (by positivity)

/-- Distance from a point to itself is zero. -/
theorem distPts_self (p : Point) : distPts p p = 0 := by
  simp [distPts]

/-- The law-of-cosines cosine of three points with nonzero adjacent sides
always lies in [-1, 1]: this is the Cauchy-Schwarz inequality. -/
theorem rawCos_mem (A B C : Point) (hAB : distPts A B ≠ 0)
    (hBC : distPts B C ≠ 0) : -1 ≤ rawCos A B C ∧ rawCos A B C ≤ 1 := by
  have ha0 : (0 : ℝ) ≤ distPts A B := Real.sqrt_nonneg _
  have hb0 : (0 : ℝ) ≤ distPts B C := Real.sqrt_nonneg _
  have ha : 0 < distPts A B := lt_of_le_of_ne ha0 (Ne.symm hAB)
  have hb : 0 < distPts B C := lt_of_le_of_ne hb0 (Ne.symm hBC)
  set u1 := B.1 - A.1 with hu1
  set u2 := B.2 - A.2 with hu2
  set v1 := C.1 - B.1 with hv1
  set v2 := C.2 - B.2 with hv2
  have hA2 : (distPts A B) ^ 2 = u1 ^ 2 + u2 ^ 2 := distPts_sq A B
  have hB2 : (distPts B C) ^ 2 = v1 ^ 2 + v2 ^ 2 := distPts_sq B C
  have hC2 : (distPts C A) ^ 2 = (u1 + v1) ^ 2 + (u2 + v2) ^ 2 := by
    have h := distPts_sq C A
    have h1 : A.1 - C.1 = -(u1 + v1) := by rw [hu1, hv1]; ring
    have h2 : A.2 - C.2 = -(u2 + v2) := by rw [hu2, hv2]; ring
    rw [h, h1, h2]; ring
  have hnum : (distPts A B) ^ 2 + (distPts B C) ^ 2 - (distPts C A) ^ 2 =
      -2 * (u1 * v1 + u2 * v2) := by rw [hA2, hB2, hC2]; ring
  -- Cauchy-Schwarz for the dot product
  have hcs : (u1 * v1 + u2 * v2) ^ 2 ≤ ((distPts A B) * (distPts B C)) ^ 2 := by
    have : ((distPts A B) * (distPts B C)) ^ 2 =
        (u1 ^ 2 + u2 ^ 2) * (v1 ^ 2 + v2 ^ 2) := by
      rw [mul_pow, hA2, hB2]
    rw [this]
    nlinarith [sq_nonneg (u1 * v2 - u2 * v1)]
  have habs : |u1 * v1 + u2 * v2| ≤ (distPts A B) * (distPts B C) := by
    have h1 : |u1 * v1 + u2 * v2| = Real.sqrt ((u1 * v1 + u2 * v2) ^ 2) :=
      (Real.sqrt_sq_eq_abs _).symm
    have h2 : Real.sqrt (((distPts A B) * (distPts B C)) ^ 2) =
        (distPts A B) * (distPts B C) :=
      Real.sqrt_sq (by positivity)
    rw [h1, ← h2]
    exact Real.sqrt_le_sqrt hcs
  have hab : 0 < distPts A B * distPts B C := mul_pos ha hb
  have hlow : -(distPts A B * distPts B C) ≤ u1 * v1 + u2 * v2 :=
    (abs_le.mp habs).1
  have hhigh : u1 * v1 + u2 * v2 ≤ distPts A B * distPts B C :=
    (abs_le.mp habs).2
  constructor
  · rw [rawCos, hnum]
    rw [le_div_iff₀ (by positivity : (0:ℝ) < 2 * distPts A B * distPts B C)]
    nlinarith
  · rw [rawCos, hnum]
    rw [div_le_iff₀ (by positivity : (0:ℝ) < 2 * distPts A B * distPts B C)]
    nlinarith

/-- Rounding to 10 decimal places maps [-1, 1] into [-1, 1]. -/
theorem round10_mem {x : ℝ} (h1 : -1 ≤ x) (h2 : x ≤ 1) :
    -1 ≤ round10 x ∧ round10 x ≤ 1 := by
  have hmono : ∀ a b : ℝ, a ≤ b → round a ≤ round b := by
    intro a b hab
    rw [round_eq, round_eq]
    exact Int.floor_le_floor (by linarith)
  have hceil : round ((1 : ℝ) * 10 ^ 10) = 10 ^ 10 := by
    rw [show ((1 : ℝ) * 10 ^ 10) = ((10 ^ 10 : ℤ) : ℝ) by norm_num]
    rw [round_intCast]
  have hfloor : round ((-1 : ℝ) * 10 ^ 10) = -(10 ^ 10) := by
    rw [show ((-1 : ℝ) * 10 ^ 10) = ((-(10 ^ 10) : ℤ) : ℝ) by norm_num]
    rw [round_intCast]
  constructor
  · have := hmono ((-1 : ℝ) * 10 ^ 10) (x * 10 ^ 10) (by nlinarith)
    rw [hfloor] at this
    rw [round10]
    rw [le_div_iff₀ (by norm_num : (0:ℝ) < 10 ^ 10)]
    calc (-1 : ℝ) * 10 ^ 10 = ((-(10 ^ 10) : ℤ) : ℝ) := by push_cast; ring
    _ ≤ _ := by exact_mod_cast this
  · have := hmono (x * 10 ^ 10) ((1 : ℝ) * 10 ^ 10) (by nlinarith)
    rw [hceil] at this
    rw [round10]
    rw [div_le_iff₀ (by norm_num : (0:ℝ) < 10 ^ 10)]
    calc ((round (x * 10 ^ 10) : ℤ) : ℝ) ≤ ((10 ^ 10 : ℤ) : ℝ) := by exact_mod_cast this
    _ = 1 * 10 ^ 10 := by push_cast; ring

/-- round(0, 10) is 0. -/
theorem round10_zero : round10 0 = 0 := by
  rw [round10]
  norm_num

/-- round(1, 10) is 1. -/
theorem round10_one : round10 1 = 1 := by
  rw [round10, show ((1 : ℝ) * 10 ^ 10) = ((10 ^ 10 : ℤ) : ℝ) by norm_num,
    round_intCast]
  norm_num

/-- pyRound restores integers. -/
theorem pyRound_intCast (n : ℤ) : pyRound (n : ℝ) = n := by
  rw [pyRound, round_intCast]

/-- For a cosine value inside [-1, 1] the evaluator takes the acos branch. -/
theorem angleFromCos_of_mem {p : ℝ} (h1 : -1 ≤ p) (h2 : p ≤ 1) :
    angleFromCos p = pyRound (degreesOf (Real.arccos p)) := by
  rw [angleFromCos, if_neg]
  push_neg
  exact ⟨by linarith, by linarith⟩

/-- A cosine of 0 gives a 90 degree angle. -/
theorem angleFromCos_round10_zero : angleFromCos (round10 0) = 90 := by
  rw [round10_zero, angleFromCos_of_mem (by norm_num) (by norm_num),
    Real.arccos_zero]
  have hdeg : degreesOf (Real.pi / 2) = 90 := by
    rw [degreesOf, div_eq_iff Real.pi_ne_zero]
    ring
  rw [hdeg, show (90 : ℝ) = ((90 : ℤ) : ℝ) by norm_num, pyRound_intCast]

/-- A cosine of 1 gives a 0 degree angle. -/
theorem angleFromCos_round10_one : angleFromCos (round10 1) = 0 := by
  rw [round10_one, angleFromCos_of_mem (by norm_num) (by norm_num),
    Real.arccos_one]
  have hdeg : degreesOf 0 = 0 := by
    rw [degreesOf]
    simp
  rw [hdeg, show (0 : ℝ) = ((0 : ℤ) : ℝ) by norm_num, pyRound_intCast]

/-- Unfolding GetAngleFromPoints on an in-range, nondegenerate triple. -/
theorem GetAngleFromPoints_nondegenerate (pntList : List Point) (i : ℕ)
    (h : i + 2 < pntList.length)
    (hAB : distPts (pntList.getD i (0, 0)) (pntList.getD (i + 1) (0, 0)) ≠ 0)
    (hBC : distPts (pntList.getD (i + 1) (0, 0)) (pntList.getD (i + 2) (0, 0)) ≠ 0) :
    GetAngleFromPoints pntList i =
      angleFromCos (round10 (rawCos (pntList.getD i (0, 0))
        (pntList.getD (i + 1) (0, 0)) (pntList.getD (i + 2) (0, 0)))) := by
  rw [GetAngleFromPoints]
  simp only []
  rw [if_pos h, if_neg]
  push_neg
  exact ⟨hAB, hBC⟩

/-- Unfolding GetAngleFromPoints on an in-range, degenerate triple. -/
theorem GetAngleFromPoints_degenerate (pntList : List Point) (i : ℕ)
    (h : i + 2 < pntList.length)
    (hdeg : distPts (pntList.getD i (0, 0)) (pntList.getD (i + 1) (0, 0)) = 0 ∨
      distPts (pntList.getD (i + 1) (0, 0)) (pntList.getD (i + 2) (0, 0)) = 0) :
    GetAngleFromPoints pntList i = 0 := by
  rw [GetAngleFromPoints]
  simp only []
  rw [if_pos h, if_pos hdeg]

/-- Membership in the angle scan: an index is flagged exactly when its
computed angle is at most the threshold (and the index is in range). -/
theorem mem_angleScanIdx (pntList : List Point) (m : ℤ) (i : ℕ) (a : ℤ) :
    (i, a) ∈ angleScanIdx pntList m ↔
      GetAngleFromPoints pntList i = a ∧ a ≤ m ∧ i + 2 < pntList.length := by
  rw [angleScanIdx, List.mem_filterMap]
  constructor
  · rintro ⟨j, hj, hf⟩
    rw [List.mem_range] at hj
    by_cases hle : GetAngleFromPoints pntList j ≤ m
    · rw [if_pos hle] at hf
      have h1 : j = i := (Prod.mk.injEq _ _ _ _ ▸ Option.some.injEq _ _ ▸ hf).1
      have h2 : GetAngleFromPoints pntList j = a :=
        (Prod.mk.injEq _ _ _ _ ▸ Option.some.injEq _ _ ▸ hf).2
      subst h1
      exact ⟨h2, h2 ▸ hle, by omega⟩
    · rw [if_neg hle] at hf
      exact absurd hf (by simp)
  · rintro ⟨hval, hle, hrange⟩
    refine ⟨i, List.mem_range.mpr (by omega), ?_⟩
    rw [hval, if_pos hle]

/-- The window loop started with one collected vertex produces exactly the
flagged consecutive pairs, appended to the incoming accumulator. -/
theorem vpLoop_cons (fid : ℕ) (m : ℝ) :
    ∀ (part : List (Option Point)) (a : Point) (iSeg : ℝ)
      (defs : List SegDefect),
    (vpLoop fid m [a] iSeg defs part).2 =
      defs ++ (consecPairs (a :: collectPts part)).filterMap (segFlag fid m) := by
  intro part
  induction part with
  | nil =>
    intro a iSeg defs
    simp [vpLoop, collectPts, consecPairs]
  | cons o rest ih =>
    intro a iSeg defs
    cases o with
    | none =>
      simp [vpLoop, collectPts, consecPairs]
    | some b =>
      have hstep : vpLoop fid m [a] iSeg defs (some b :: rest) =
          vpLoop fid m [b] (if distPts a b < iSeg then distPts a b else iSeg)
            (if distPts a b < m then
              defs ++ [⟨((a.1 + b.1) / 2, (a.2 + b.2) / 2), fid, distPts a b⟩]
            else defs) rest := by
        simp [vpLoop]
      rw [hstep, ih]
      simp only [collectPts, consecPairs, List.filterMap_cons]
      by_cases hd : distPts a b < m
      · have hflag : segFlag fid m (a, b) =
            some ⟨((a.1 + b.1) / 2, (a.2 + b.2) / 2), fid, distPts a b⟩ := by
          rw [segFlag, if_pos hd]
        rw [if_pos hd, hflag]
        simp
      · have hflag : segFlag fid m (a, b) = none := by
          rw [segFlag, if_neg hd]
        rw [if_neg hd, hflag]

/-- The segment evaluator loop, started on a fresh window, computes
exactly the specification-side defect list. -/
theorem vpLoop_spec (fid : ℕ) (m : ℝ) (part : List (Option Point))
    (iSeg : ℝ) (defs : List SegDefect) :
    (vpLoop fid m [] iSeg defs part).2 = defs ++ segDefectsSpec fid m part := by
  cases part with
  | nil => simp [vpLoop, segDefectsSpec, collectPts, consecPairs]
  | cons o rest =>
    cases o with
    | none => simp [vpLoop, segDefectsSpec, collectPts, consecPairs]
    | some a =>
      have hstep : vpLoop fid m [] iSeg defs (some a :: rest) =
          vpLoop fid m [a] iSeg defs rest := by
        simp [vpLoop]
      rw [hstep, vpLoop_cons, segDefectsSpec]
      simp [collectPts]

/-- Inserting an entry whose key is smaller than every key of an
angleOrd-sorted list keeps the list angleOrd-sorted. -/
theorem pairwise_orderedInsert (p : ℕ × ℤ) :
    ∀ l : List (ℕ × ℤ), l.Pairwise angleOrd → (∀ q ∈ l, p.1 < q.1) →
    (List.orderedInsert (fun a b => a.2 ≤ b.2) p l).Pairwise angleOrd := by
  intro l
  induction l with
  | nil =>
    intro _ _
    simp [List.orderedInsert]
  | cons q rest ih =>
    intro hl hp
    rw [List.orderedInsert]
    rcases List.pairwise_cons.mp hl with ⟨hq_rest, hrest⟩
    by_cases hle : p.2 ≤ q.2
    · rw [if_pos hle]
      refine List.pairwise_cons.mpr ⟨?_, hl⟩
      intro x hx
      rcases List.mem_cons.mp hx with hxq | hxr
      · subst hxq
        rcases lt_or_eq_of_le hle with h | h
        · exact Or.inl h
        · exact Or.inr ⟨h, hp x (List.mem_cons_self _ _)⟩
      · rcases hq_rest x hxr with hlt | ⟨heq, _⟩
        · exact Or.inl (lt_of_le_of_lt hle hlt)
        · rcases lt_or_eq_of_le hle with h | h
          · exact Or.inl (heq ▸ h)
          · exact Or.inr ⟨h.trans heq, hp x (List.mem_cons_of_mem _ hxr)⟩
    · rw [if_neg hle]
      push_neg at hle
      refine List.pairwise_cons.mpr ⟨?_, ?_⟩
      · intro x hx
        rcases (List.mem_orderedInsert _).mp hx with hxp | hxr
        · subst hxp
          exact Or.inl hle
        · exact hq_rest x hxr
      · exact ih hrest (fun x hx => hp x (List.mem_cons_of_mem _ hx))

/-- The stable sort used before materialization orders the keyed angles
ascending by angle, ties kept in key (discovery) order. -/
theorem pairwise_sortByAngle :
    ∀ L : List (ℕ × ℤ), L.Pairwise (fun a b => a.1 < b.1) →
    (sortByAngle L).Pairwise angleOrd := by
  intro L
  induction L with
  | nil =>
    intro _
    simp [sortByAngle, List.insertionSort]
  | cons p rest ih =>
    intro hL
    rcases List.pairwise_cons.mp hL with ⟨hp_rest, hrest⟩
    rw [sortByAngle, List.insertionSort]
    apply pairwise_orderedInsert
    · exact ih hrest
    · intro q hq
      exact hp_rest q ((List.perm_insertionSort _ rest).mem_iff.mp hq)

/-- The sort is a permutation: no defect is lost or duplicated. -/
theorem sortByAngle_perm (L : List (ℕ × ℤ)) : (sortByAngle L).Perm L :=
  List.perm_insertionSort _ L

/-- Generic distance evaluation through a known square. -/
theorem distPts_eval (p q : Point) (v : ℝ) (hv : 0 ≤ v)
    (h : (q.1 - p.1) ^ 2 + (q.2 - p.2) ^ 2 = v ^ 2) : distPts p q = v := by
  rw [distPts, h, Real.sqrt_sq hv]

/-- Generic law-of-cosines evaluation from the three side measurements. -/
theorem rawCos_eval (A B C : Point) (a b c2 : ℝ) (hA : distPts A B = a)
    (hB : distPts B C = b) (hC2 : (distPts C A) ^ 2 = c2) :
    rawCos A B C = (a ^ 2 + b ^ 2 - c2) / (2 * a * b) := by
  rw [rawCos, hA, hB, hC2]

/-- Distances between the concrete vertices. -/
theorem dist_q00_q10 : distPts q00 q10 = 1 :=
  distPts_eval _ _ 1 (by norm_num) (by norm_num [q00, q10])

/-- Reverse unit distance. -/
theorem dist_q10_q00 : distPts q10 q00 = 1 :=
  distPts_eval _ _ 1 (by norm_num) (by norm_num [q00, q10])

/-- Right side of the square. -/
theorem dist_q10_q11 : distPts q10 q11 = 1 :=
  distPts_eval _ _ 1 (by norm_num) (by norm_num [q10, q11])

/-- Top side of the square. -/
theorem dist_q11_q01 : distPts q11 q01 = 1 :=
  distPts_eval _ _ 1 (by norm_num) (by norm_num [q11, q01])

/-- Left side of the square. -/
theorem dist_q01_q00 : distPts q01 q00 = 1 :=
  distPts_eval _ _ 1 (by norm_num) (by norm_num [q01, q00])

/-- Vertical unit distance. -/
theorem dist_q00_q01 : distPts q00 q01 = 1 :=
  distPts_eval _ _ 1 (by norm_num) (by norm_num [q00, q01])

/-- The long horizontal segment. -/
theorem dist_q00_q50 : distPts q00 q50 = 5 :=
  distPts_eval _ _ 5 (by norm_num) (by norm_num [q00, q50])

/-- Squared diagonals of the unit square. -/
theorem sq_q11_q00 : (distPts q11 q00) ^ 2 = 2 := by
  rw [distPts_sq]; norm_num [q11, q00]

/-- Squared diagonal, other direction. -/
theorem sq_q00_q11 : (distPts q00 q11) ^ 2 = 2 := by
  rw [distPts_sq]; norm_num [q00, q11]

/-- Squared anti-diagonal. -/
theorem sq_q01_q10 : (distPts q01 q10) ^ 2 = 2 := by
  rw [distPts_sq]; norm_num [q01, q10]

/-- Squared anti-diagonal, other direction. -/
theorem sq_q10_q01 : (distPts q10 q01) ^ 2 = 2 := by
  rw [distPts_sq]; norm_num [q10, q01]

/-- An in-range triple with a right angle evaluates to 90 degrees. -/
theorem GetAngle_eval90 (pntList : List Point) (i : ℕ) (A B C : Point)
    (h : i + 2 < pntList.length)
    (hA : pntList.getD i (0, 0) = A) (hB : pntList.getD (i + 1) (0, 0) = B)
    (hC : pntList.getD (i + 2) (0, 0) = C)
    (hAB : distPts A B ≠ 0) (hBC : distPts B C ≠ 0)
    (hraw : rawCos A B C = 0) : GetAngleFromPoints pntList i = 90 := by
  rw [GetAngleFromPoints_nondegenerate pntList i h
    (by rw [hA, hB]; exact hAB) (by rw [hB, hC]; exact hBC)]
  rw [hA, hB, hC, hraw, angleFromCos_round10_zero]

/-- An in-range triple with cosine 1 (a zero-width spike) evaluates to 0
degrees. -/
theorem GetAngle_eval0 (pntList : List Point) (i : ℕ) (A B C : Point)
    (h : i + 2 < pntList.length)
    (hA : pntList.getD i (0, 0) = A) (hB : pntList.getD (i + 1) (0, 0) = B)
    (hC : pntList.getD (i + 2) (0, 0) = C)
    (hAB : distPts A B ≠ 0) (hBC : distPts B C ≠ 0)
    (hraw : rawCos A B C = 1) : GetAngleFromPoints pntList i = 0 := by
  rw [GetAngleFromPoints_nondegenerate pntList i h
    (by rw [hA, hB]; exact hAB) (by rw [hB, hC]; exact hBC)]
  rw [hA, hB, hC, hraw, angleFromCos_round10_one]

/-- Angle at index 0 of the wrapped degenerate triangle: 0 degrees. -/
theorem angle_wrapP1_0 : GetAngleFromPoints wrapP1 0 = 0 := by
  apply GetAngle_eval0 wrapP1 0 q00 q10 q00 (by norm_num [wrapP1]) rfl rfl rfl
  · rw [dist_q00_q10]; norm_num
  · rw [dist_q10_q00]; norm_num
  · rw [rawCos_eval q00 q10 q00 1 1 0 dist_q00_q10 dist_q10_q00
      (by rw [distPts_sq]; norm_num [q00])]
    norm_num

/-- Angle at index 1 of the wrapped degenerate triangle: 0 degrees. -/
theorem angle_wrapP1_1 : GetAngleFromPoints wrapP1 1 = 0 := by
  apply GetAngle_eval0 wrapP1 1 q10 q00 q10 (by norm_num [wrapP1]) rfl rfl rfl
  · rw [dist_q10_q00]; norm_num
  · rw [dist_q00_q10]; norm_num
  · rw [rawCos_eval q10 q00 q10 1 1 0 dist_q10_q00 dist_q00_q10
      (by rw [distPts_sq]; norm_num [q10])]
    norm_num

/-- Angle at index 0 of the wrapped unit square: 90 degrees. -/
theorem angle_square_0 : GetAngleFromPoints wrapSquare 0 = 90 := by
  apply GetAngle_eval90 wrapSquare 0 q00 q10 q11 (by norm_num [wrapSquare])
    rfl rfl rfl
  · rw [dist_q00_q10]; norm_num
  · rw [dist_q10_q11]; norm_num
  · rw [rawCos_eval q00 q10 q11 1 1 2 dist_q00_q10 dist_q10_q11 sq_q11_q00]
    norm_num

/-- Angle at index 1 of the wrapped unit square: 90 degrees. -/
theorem angle_square_1 : GetAngleFromPoints wrapSquare 1 = 90 := by
  apply GetAngle_eval90 wrapSquare 1 q10 q11 q01 (by norm_num [wrapSquare])
    rfl rfl rfl
  · rw [dist_q10_q11]; norm_num
  · rw [dist_q11_q01]; norm_num
  · rw [rawCos_eval q10 q11 q01 1 1 2 dist_q10_q11 dist_q11_q01 sq_q01_q10]
    norm_num

/-- Angle at index 2 of the wrapped unit square: 90 degrees. -/
theorem angle_square_2 : GetAngleFromPoints wrapSquare 2 = 90 := by
  apply GetAngle_eval90 wrapSquare 2 q11 q01 q00 (by norm_num [wrapSquare])
    rfl rfl rfl
  · rw [dist_q11_q01]; norm_num
  · rw [dist_q01_q00]; norm_num
  · rw [rawCos_eval q11 q01 q00 1 1 2 dist_q11_q01 dist_q01_q00 sq_q00_q11]
    norm_num

/-- Angle at index 3 of the wrapped unit square: 90 degrees. -/
theorem angle_square_3 : GetAngleFromPoints wrapSquare 3 = 90 := by
  apply GetAngle_eval90 wrapSquare 3 q01 q00 q10 (by norm_num [wrapSquare])
    rfl rfl rfl
  · rw [dist_q01_q00]; norm_num
  · rw [dist_q00_q10]; norm_num
  · rw [rawCos_eval q01 q00 q10 1 1 2 dist_q01_q00 dist_q00_q10 sq_q10_q01]
    norm_num

/-- Scanning the wrapped degenerate triangle flags both angles. -/
theorem scanIdx_wrapP1 : angleScanIdx wrapP1 30 = [(0, 0), (1, 0)] := by
  rw [angleScanIdx]
  rw [show wrapP1.length - 2 = 2 by norm_num [wrapP1]]
  rw [show List.range 2 = [0, 1] from rfl]
  simp [List.filterMap_cons, angle_wrapP1_0, angle_wrapP1_1]

/-- Scanning the wrapped unit square flags nothing at threshold 30. -/
theorem scanIdx_square : angleScanIdx wrapSquare 30 = [] := by
  rw [angleScanIdx]
  rw [show wrapSquare.length - 2 = 4 by norm_num [wrapSquare]]
  rw [show List.range 4 = [0, 1, 2, 3] from rfl]
  simp [List.filterMap_cons, angle_square_0, angle_square_1, angle_square_2,
    angle_square_3]

/-- The degenerate triangle alone survives the walk and is wrapped. -/
theorem lastWrapped_P1 : lastWrapped [partP1] = some wrapP1 := rfl

/-- With two parts, the walk keeps only the last (square) part. -/
theorem lastWrapped_P1_square :
    lastWrapped [partP1, partSquare] = some wrapSquare := rfl

/-- The defects of the single-part degenerate triangle feature. -/
theorem defects_P1 :
    sliverFeatureDefects 30 ⟨1, some [partP1]⟩ =
      [⟨(q00, q10, q00), 1, 0⟩, ⟨(q10, q00, q10), 1, 0⟩] := by
  have h1 : sliverFeatureDefects 30 ⟨1, some [partP1]⟩ =
      angleDefectsOf 1 wrapP1 30 := rfl
  rw [h1, angleDefectsOf, scanIdx_wrapP1]
  simp [wrapP1]

/-- The two-part feature (triangle first, square last) yields no defects:
only the last part is scanned. -/
theorem defects_P1_square :
    sliverFeatureDefects 30 ⟨1, some [partP1, partSquare]⟩ = [] := by
  have h1 : sliverFeatureDefects 30 ⟨1, some [partP1, partSquare]⟩ =
      angleDefectsOf 1 wrapSquare 30 := rfl
  rw [h1, angleDefectsOf, scanIdx_square]
  rfl

/-- C2: for every in-range vertex triple with nonzero adjacent sides, the
evaluator returns the law-of-cosines angle degrees(acos(clamp(p, -1, 1)))
rounded to the nearest integer degree, where p is the cosine argument as
the code computes it (rounded to 10 decimal places); the argument provably
lies in [-1, 1], so the clamp never alters it and the computation is
defined for every such triple. -/
theorem c2_angle_formula (pntList : List Point) (i : ℕ)
    (h : i + 2 < pntList.length)
    (hAB : distPts (pntList.getD i (0, 0)) (pntList.getD (i + 1) (0, 0)) ≠ 0)
    (hBC : distPts (pntList.getD (i + 1) (0, 0))
      (pntList.getD (i + 2) (0, 0)) ≠ 0) :
    (-1 ≤ rawCos (pntList.getD i (0, 0)) (pntList.getD (i + 1) (0, 0))
        (pntList.getD (i + 2) (0, 0)) ∧
      rawCos (pntList.getD i (0, 0)) (pntList.getD (i + 1) (0, 0))
        (pntList.getD (i + 2) (0, 0)) ≤ 1) ∧
    GetAngleFromPoints pntList i =
      pyRound (degreesOf (Real.arccos (max (-1) (min 1 (round10 (rawCos
        (pntList.getD i (0, 0)) (pntList.getD (i + 1) (0, 0))
        (pntList.getD (i + 2) (0, 0)))))))) := by
  obtain ⟨hl, hr⟩ := rawCos_mem _ _ _ hAB hBC
  obtain ⟨hl10, hr10⟩ := round10_mem hl hr
  have hclamp : max (-1) (min 1 (round10 (rawCos (pntList.getD i (0, 0))
      (pntList.getD (i + 1) (0, 0)) (pntList.getD (i + 2) (0, 0))))) =
      round10 (rawCos (pntList.getD i (0, 0)) (pntList.getD (i + 1) (0, 0))
        (pntList.getD (i + 2) (0, 0))) := by
    rw [min_eq_right hr10, max_eq_right hl10]
  refine ⟨⟨hl, hr⟩, ?_⟩
  rw [GetAngleFromPoints_nondegenerate pntList i h hAB hBC, hclamp,
    angleFromCos_of_mem hl10 hr10]

/-- Witness for c2_angle_formula at the right triangle (1,0), (0,0), (0,1). -/
theorem c2_angle_formula_witness :
    ((-1 ≤ rawCos q10 q00 q01 ∧ rawCos q10 q00 q01 ≤ 1) ∧
      GetAngleFromPoints [q10, q00, q01] 0 =
        pyRound (degreesOf (Real.arccos
          (max (-1) (min 1 (round10 (rawCos q10 q00 q01))))))) :=
  c2_angle_formula [q10, q00, q01] 0 (by norm_num)
    (by show distPts q10 q00 ≠ 0; rw [dist_q10_q00]; norm_num)
    (by show distPts q00 q01 ≠ 0; rw [dist_q00_q01]; norm_num)

/-- C6: a degenerate triple (a zero-length adjacent side) evaluates to
angle 0 instead of failing; the scan records an index exactly when its
angle is at most the threshold, so a degenerate vertex is always recorded
whenever the threshold is nonnegative. -/
theorem c6_degenerate_angle (pntList : List Point) (i : ℕ) (m : ℤ)
    (h : i + 2 < pntList.length)
    (hdeg : distPts (pntList.getD i (0, 0)) (pntList.getD (i + 1) (0, 0)) = 0 ∨
      distPts (pntList.getD (i + 1) (0, 0))
        (pntList.getD (i + 2) (0, 0)) = 0) :
    GetAngleFromPoints pntList i = 0 ∧
    (∀ a : ℤ, (i, a) ∈ angleScanIdx pntList m ↔
      GetAngleFromPoints pntList i = a ∧ a ≤ m) ∧
    (0 ≤ m → (i, (0 : ℤ)) ∈ angleScanIdx pntList m) := by
  have h0 := GetAngleFromPoints_degenerate pntList i h hdeg
  refine ⟨h0, ?_, ?_⟩
  · intro a
    rw [mem_angleScanIdx]
    constructor
    · rintro ⟨hv, hle, _⟩
      exact ⟨hv, hle⟩
    · rintro ⟨hv, hle⟩
      exact ⟨hv, hle, h⟩
  · intro hm
    rw [mem_angleScanIdx]
    exact ⟨h0, hm, h⟩

/-- Witness for c6_degenerate_angle at a duplicated vertex. -/
theorem c6_degenerate_angle_witness :
    GetAngleFromPoints [q00, q00, q10] 0 = 0 ∧
    (∀ a : ℤ, (0, a) ∈ angleScanIdx [q00, q00, q10] 5 ↔
      GetAngleFromPoints [q00, q00, q10] 0 = a ∧ a ≤ 5) ∧
    (0 ≤ (5 : ℤ) → ((0 : ℕ), (0 : ℤ)) ∈ angleScanIdx [q00, q00, q10] 5) :=
  c6_degenerate_angle [q00, q00, q10] 0 5 (by norm_num)
    (Or.inl (by show distPts q00 q00 = 0; exact distPts_self q00))

/-- C10: a cosine argument outside [-1, 1] (reachable only through the
floating-point arithmetic of the host, never through exact arithmetic,
by rawCos_mem) makes the evaluator return -1 via its exception handler,
and -1 passes the caller's defect test angle <= threshold for every
nonnegative threshold. -/
theorem c10_acos_domain_fallback (p : ℝ) (hp : p < -1 ∨ 1 < p) :
    angleFromCos p = -1 ∧ ∀ m : ℤ, 0 ≤ m → angleFromCos p ≤ m := by
  have h1 : angleFromCos p = -1 := by rw [angleFromCos, if_pos hp]
  exact ⟨h1, fun m hm => by rw [h1]; omega⟩

/-- Witness for c10_acos_domain_fallback at cosine value 2. -/
theorem c10_acos_domain_fallback_witness :
    angleFromCos 2 = -1 ∧ angleFromCos 2 ≤ 0 :=
  ⟨(c10_acos_domain_fallback 2 (Or.inr (by norm_num))).1,
    (c10_acos_domain_fallback 2 (Or.inr (by norm_num))).2 0 le_rfl⟩

/-- A part from which exactly two vertices are collected is wrapped to a
three-vertex list whose single triple is degenerate: the scan emits one
angle-0 defect whenever the threshold is nonnegative. -/
theorem sliver_two_vertex (a b : Point) (fid : ℕ) (m : ℤ)
    (part : List (Option Point)) (hc : collectPts part = [a, b]) (hm : 0 ≤ m) :
    sliverFeatureDefects m ⟨fid, some [part]⟩ = [⟨(a, b, b), fid, 0⟩] := by
  have hw : lastWrapped [part] = some [a, b, b] := by
    rw [lastWrapped]
    simp [hc]
  have hang : GetAngleFromPoints [a, b, b] 0 = 0 :=
    GetAngleFromPoints_degenerate [a, b, b] 0 (by norm_num)
      (Or.inr (by show distPts b b = 0; exact distPts_self b))
  have hscan : angleScanIdx [a, b, b] m = [(0, 0)] := by
    rw [angleScanIdx]
    rw [show ([a, b, b] : List Point).length - 2 = 1 by norm_num]
    rw [show List.range 1 = [0] from rfl]
    simp [List.filterMap_cons, hang, hm]
  have h1 : sliverFeatureDefects m ⟨fid, some [part]⟩ =
      match lastWrapped [part] with
      | none => []
      | some pntList => angleDefectsOf fid pntList m := by
    rw [sliverFeatureDefects]
    simp
  rw [h1, hw]
  show angleDefectsOf fid [a, b, b] m = _
  rw [angleDefectsOf, hscan]
  simp

/-- C9 counterexample: a part with only two collected vertices is not
skipped silently: the angle evaluator runs on the wrapped triple and a
degenerate angle-0 defect is recorded. -/
theorem c9_two_vertex_counterexample :
    sliverFeatureDefects 30 ⟨1, some [[some q00, some q50]]⟩ =
      [⟨(q00, q50, q50), 1, 0⟩] :=
  sliver_two_vertex q00 q50 1 30 _ rfl (by norm_num)

/-- C9 amended: a part with fewer than two collected vertices makes the
wrap-around indexing fail, so the polygon is dropped after a reported
(swallowed) error and no evaluator runs for it; a part with exactly two
collected vertices however does reach the angle evaluator once, producing
a recorded degenerate angle-0 defect for any nonnegative threshold. -/
theorem c9_short_part_amended :
    (∀ part : List (Option Point), (collectPts part).length < 2 →
      lastWrapped [part] = none) ∧
    (∀ (a b : Point) (fid : ℕ) (m : ℤ) (part : List (Option Point)),
      collectPts part = [a, b] → 0 ≤ m →
      sliverFeatureDefects m ⟨fid, some [part]⟩ = [⟨(a, b, b), fid, 0⟩]) := by
  constructor
  · intro part hlen
    simp only [lastWrapped]
    rw [if_neg (by omega)]
  · intro a b fid m part hc hm
    exact sliver_two_vertex a b fid m part hc hm

/-- Witness for c9_short_part_amended: a one-vertex part and a two-vertex
part. -/
theorem c9_short_part_amended_witness :
    lastWrapped [[some q00]] = none ∧
    sliverFeatureDefects 7 ⟨2, some [[some q00, some q10]]⟩ =
      [⟨(q00, q10, q10), 2, 0⟩] :=
  ⟨c9_short_part_amended.1 [some q00] (by simp [collectPts]),
   c9_short_part_amended.2 q00 q10 2 7 _ rfl (by norm_num)⟩

/-- C3 counterexample: for the two-part feature whose first part holds two
0-degree slivers and whose last part is a clean square, the scan flags
nothing, although the first part alone is full of defects: the list
carried forward is the last part read, not the first. -/
theorem c3_first_part_counterexample :
    sliverFeatureDefects 30 ⟨1, some [partP1, partSquare]⟩ = [] ∧
    sliverFeatureDefects 30 ⟨1, some [partP1]⟩ =
      [⟨(q00, q10, q00), 1, 0⟩, ⟨(q10, q00, q10), 1, 0⟩] :=
  ⟨defects_P1_square, defects_P1⟩

/-- Evaluating the record processing on the two-part feature. -/
theorem proc_gMulti : processVPFeature 5 ("meters") [] gMulti =
    some (⟨4, 1 / 4046.85643, 2, 1 / 2, 1000000, 2⟩, []) := by
  simp only [processVPFeature, gMulti, vpPointCount, vpParts, vpLoop, acresOf]
  norm_num [vpParts, vpLoop, List.filterMap]

/-- C3 amended: when every earlier part survives collection, the vertex
list carried forward for angle scanning is that of the LAST part (each
part overwrites the working list); and a multipart polygon is flagged in
its statistics row with a nonzero MULTIPART value equal to the part
count. -/
theorem c3_last_part_scanned :
    (∀ (ps : List (List (Option Point))) (p : List (Option Point)),
      (∀ q ∈ ps, 2 ≤ (collectPts q).length) →
      lastWrapped (ps ++ [p]) = lastWrapped [p]) ∧
    (∀ (minDist : ℝ) (u : String) (defs0 : List SegDefect) (f : VPFeature)
      (parts : List (List (Option Point))) (row : StatsRow)
      (defs : List SegDefect),
      f.shape = some parts → 1 < parts.length →
      processVPFeature minDist u defs0 f = some (row, defs) →
      row.multipart = parts.length ∧ row.multipart ≠ 0) := by
  constructor
  · intro ps
    induction ps with
    | nil =>
      intro p _
      rfl
    | cons q ps2 ih =>
      intro p hps
      have hq : 2 ≤ (collectPts q).length := hps q (List.mem_cons_self _ _)
      have hrest : ∀ r ∈ ps2, 2 ≤ (collectPts r).length :=
        fun r hr => hps r (List.mem_cons_of_mem _ hr)
      cases ps2 with
      | nil =>
        show lastWrapped [q, p] = lastWrapped [p]
        simp only [lastWrapped]
        rw [if_pos hq]
      | cons r rs =>
        have hstep : lastWrapped ((q :: r :: rs) ++ [p]) =
            lastWrapped ((r :: rs) ++ [p]) := by
          show lastWrapped (q :: ((r :: rs) ++ [p])) = _
          simp only [lastWrapped, List.cons_append]
          rw [if_pos hq]
        rw [hstep]
        exact ih p hrest
  · intro minDist u defs0 f parts row defs hshape hlen hproc
    obtain ⟨fid, shape, area, perim⟩ := f
    simp only at hshape
    subst hshape
    simp only [processVPFeature] at hproc
    cases hac : acresOf area u with
    | none =>
      simp only [hac] at hproc
      exact absurd hproc (by simp)
    | some ac =>
      simp only [hac] at hproc
      by_cases hz : vpPointCount parts = 0
      · rw [if_pos hz] at hproc
        exact absurd hproc (by simp)
      · rw [if_neg hz] at hproc
        have hpair := Option.some.inj hproc
        have hrow : row = ⟨fid, ac, vpPointCount parts,
            perim / (vpPointCount parts : ℝ),
            (vpParts fid minDist parts 1000000 defs0).1,
            if parts.length = 1 then 0 else parts.length⟩ :=
          (Prod.mk.injEq _ _ _ _ ▸ hpair).1.symm
        rw [hrow]
        have : (if parts.length = 1 then 0 else parts.length) = parts.length :=
          if_neg (by omega)
        constructor
        · exact this
        · rw [show (⟨fid, ac, vpPointCount parts,
            perim / (vpPointCount parts : ℝ),
            (vpParts fid minDist parts 1000000 defs0).1,
            if parts.length = 1 then 0 else parts.length⟩ : StatsRow).multipart =
            (if parts.length = 1 then 0 else parts.length) from rfl, this]
          omega

/-- Witness for c3_last_part_scanned: the triangle-then-square feature and
the concrete two-part statistics row. -/
theorem c3_last_part_scanned_witness :
    lastWrapped [partP1, partSquare] = lastWrapped [partSquare] ∧
    ((⟨4, 1 / 4046.85643, 2, 1 / 2, 1000000, 2⟩ : StatsRow).multipart =
      ([[some q00], [some q10]] : List (List (Option Point))).length ∧
     (⟨4, 1 / 4046.85643, 2, 1 / 2, 1000000, 2⟩ : StatsRow).multipart ≠ 0) :=
  ⟨c3_last_part_scanned.1 [partP1] partSquare
      (by intro q hq; simp only [List.mem_singleton] at hq; subst hq;
          simp [partP1, collectPts]),
   c3_last_part_scanned.2 5 ("meters") [] gMulti [[some q00], [some q10]]
      ⟨4, 1 / 4046.85643, 2, 1 / 2, 1000000, 2⟩ [] rfl (by norm_num) proc_gMulti⟩

/-- C7: the segment evaluator loop records a defect for every pair of
consecutive collected vertices exactly when their Euclidean distance is
strictly below the threshold, and records as defect point the arithmetic
mean of the two endpoints. -/
theorem c7_segment_defects (fid : ℕ) (minDist : ℝ)
    (part : List (Option Point)) (iSeg : ℝ) :
    (vpLoop fid minDist [] iSeg [] part).2 = segDefectsSpec fid minDist part := by
  rw [vpLoop_spec]
  simp

/-- C4: the materialized angle-defect order is ascending by angle with
ties kept in discovery order: the sort of the keyed angles is a
permutation, pairwise-sorted with strictly increasing keys on equal
angles; and on the spec's example [30, 10, 45, 10] the output is
[10 (2nd discovered), 10 (4th discovered), 30, 45]. -/
theorem c4_angle_output_order :
    (∀ L : List (ℕ × ℤ), L.Pairwise (fun a b => a.1 < b.1) →
      (sortByAngle L).Pairwise angleOrd ∧ (sortByAngle L).Perm L) ∧
    materializeAngles [e30, e10a, e45, e10b] = [e10a, e10b, e30, e45] := by
  refine ⟨fun L hL => ⟨pairwise_sortByAngle L hL, sortByAngle_perm L⟩, ?_⟩
  rfl

/-- Witness for c4_angle_output_order on the example key-angle list. -/
theorem c4_angle_output_order_witness :
    (sortByAngle [(1, 30), (2, 10), (3, 45), (4, 10)]).Pairwise angleOrd ∧
    (sortByAngle [(1, 30), (2, 10), (3, 45), (4, 10)]).Perm
      [(1, 30), (2, 10), (3, 45), (4, 10)] :=
  c4_angle_output_order.1 [(1, 30), (2, 10), (3, 45), (4, 10)] (by decide)

/-- Record processing of g1 succeeds with its statistics row. -/
theorem proc_g1 : processVPFeature 5 ("meters") [] g1 = some (row1, []) := by
  simp only [processVPFeature, g1, vpPointCount, vpParts, vpLoop, acresOf, row1]
  norm_num [vpParts, vpLoop, List.filterMap_cons]

/-- Record processing of the zero-part polygon fails: its vertex count is
zero, so the AVI statistic divides by zero. -/
theorem proc_gBad : processVPFeature 5 ("meters") [] gBad = none := by
  simp [processVPFeature, gBad, vpPointCount, vpParts, acresOf]

/-- C1 theorem (the half that holds, QA_SliverFinder.py): if any feature
has NULL geometry or zero parts, the run fails and materializes nothing;
and (QA_VertexProblems.py) a failing record aborts the feature loop,
returning failure while keeping the statistics rows already inserted. -/
theorem c1_sliver_all_or_nothing :
    (∀ (features : List SliverFeature) (m : ℤ) (f : SliverFeature),
      f ∈ features → isBadPoly f = true →
      (processSliverRun features m).success = false ∧
      (processSliverRun features m).materialized = none) ∧
    (∀ (minDist : ℝ) (u outLayer : String) (f : VPFeature)
      (rest : List VPFeature) (acc : List StatsRow) (defs : List SegDefect),
      processVPFeature minDist u defs f = none →
      vpRunGo minDist u outLayer (f :: rest) acc defs =
        ⟨false, acc, defs, none⟩) := by
  constructor
  · intro features m f hmem hbad
    have hfmem : f ∈ features.filter (fun f => isBadPoly f) :=
      List.mem_filter.mpr ⟨hmem, hbad⟩
    have hne : ((features.filter (fun f => isBadPoly f)).map
        (fun f => f.fid)) ≠ [] :=
      List.ne_nil_of_mem (List.mem_map_of_mem _ hfmem)
    have hempty : ¬ (((features.filter (fun f => isBadPoly f)).map
        (fun f => f.fid)).isEmpty = true) := by
      rw [List.isEmpty_iff]
      exact hne
    simp only [processSliverRun]
    rw [if_neg hempty]
    exact ⟨rfl, rfl⟩
  · intro minDist u outLayer f rest acc defs hnone
    simp [vpRunGo, hnone]

/-- Witness for c1_sliver_all_or_nothing: one NULL-geometry feature, and
the zero-part polygon aborting the vertex run. -/
theorem c1_sliver_all_or_nothing_witness :
    ((processSliverRun [⟨1, none⟩] 0).success = false ∧
      (processSliverRun [⟨1, none⟩] 0).materialized = none) ∧
    vpRunGo 5 ("meters") ("out") [gBad] [] [] = ⟨false, [], [], none⟩ :=
  ⟨c1_sliver_all_or_nothing.1 [⟨1, none⟩] 0 ⟨1, none⟩
      (List.mem_singleton.mpr rfl) rfl,
   c1_sliver_all_or_nothing.2 5 ("meters") ("out") gBad [] [] [] proc_gBad⟩

/-- C1 counterexample (QA_VertexProblems.py): with features g1, gBad, g2
the run does report failure, but the statistics row of g1 is already
materialized (so output records exist), and g2 is never scanned (its row
is absent): the scan does not continue past the bad polygon and the
all-or-nothing guarantee does not hold. -/
theorem c1_vertex_counterexample :
    (processVPRun 5 ("meters") ("out") [g1, gBad, g2]).success = false ∧
    (processVPRun 5 ("meters") ("out") [g1, gBad, g2]).stats.map
      (fun r => r.polyId) = [1] := by
  have hrun : processVPRun 5 ("meters") ("out") [g1, gBad, g2] =
      ⟨false, [row1], [], none⟩ := by
    rw [processVPRun]
    simp only [vpRunGo, proc_g1, proc_gBad]
    simp
  rw [hrun]
  constructor
  · rfl
  · simp [row1]

/-- C5 (code bug): on a datum mismatch QA_VertexProblems.py halts before
scanning (none), but QA_SliverFinder.py only reports the mismatch and then
still runs ProcessLayer: with one defective polygon the run scans it and
materializes sliver output despite the mismatch. -/
theorem c5_datum_gate_bug :
    vertexMain ("D_North_American_1983") ("D_WGS_1984") 5 ("meters") ("out")
      [] = none ∧
    (sliverMain ("D_North_American_1983") ("D_WGS_1984")
      [⟨1, some [partP1]⟩] 30).1 = true ∧
    (sliverMain ("D_North_American_1983") ("D_WGS_1984")
      [⟨1, some [partP1]⟩] 30).2.materialized ≠ none := by
  refine ⟨?_, ?_, ?_⟩
  · rw [vertexMain, if_pos (by decide)]
  · rw [sliverMain]
    simp
  · have hflag : ([⟨1, some [partP1]⟩] : List SliverFeature).flatMap
        (sliverFeatureDefects 30) =
        [⟨(q00, q10, q00), 1, 0⟩, ⟨(q10, q00, q10), 1, 0⟩] := by
      simp [defects_P1]
    rw [sliverMain]
    simp only [processSliverRun, hflag]
    simp [isBadPoly, partP1]

/-- C8 counterexample: the unit name Foot normalizes to "feet", which the
acreage computation rejects (it tests "feet_us", not "feet"); and Foot_US
normalizes to "feet_us", which is outside the claimed canonical pair
{meters, feet}. -/
theorem c8_feet_counterexample :
    normalizeUnits ("Foot") = "feet" ∧ acresOf 43560 ("feet") = none ∧
    normalizeUnits ("Foot_US") = "feet_us" ∧
    (("feet_us" : String) ≠ "meters" ∧ ("feet_us" : String) ≠ "feet") := by
  refine ⟨?_, ?_, ?_, by decide⟩
  · rfl
  · simp [acresOf]
  · rfl

/-- C8 amended: acreage is area/4046.85643 for normalized unit "meters",
area/43560.0 for normalized unit "feet_us", and a fatal error for every
other normalized unit, including "feet" (the normalization of Foot);
the normalization lowercases and rewrites foot to feet and meter to
meters, without restricting to a two-value set and without reporting
unrecognized names. -/
theorem c8_acreage_amended :
    (∀ a : ℝ, acresOf a ("meters") = some (a / 4046.85643)) ∧
    (∀ a : ℝ, acresOf a ("feet_us") = some (a / 43560.0)) ∧
    (∀ (a : ℝ) (u : String), u ≠ "meters" → u ≠ "feet_us" →
      acresOf a u = none) ∧
    normalizeUnits ("Meter") = "meters" ∧
    normalizeUnits ("Foot_US") = "feet_us" ∧
    normalizeUnits ("Foot") = "feet" := by
  refine ⟨fun a => ?_, fun a => ?_, fun a u h1 h2 => ?_, rfl, rfl, rfl⟩
  · rw [acresOf, if_pos rfl]
  · rw [acresOf, if_neg (by decide), if_pos rfl]
  · rw [acresOf, if_neg h1, if_neg h2]

/-- Witness for c8_acreage_amended: an unknown unit and a metric area. -/
theorem c8_acreage_amended_witness :
    acresOf 1 ("yards") = none ∧ acresOf 2 ("meters") = some (2 / 4046.85643) :=
  ⟨c8_acreage_amended.2.2.1 1 ("yards") (by decide) (by decide),
   c8_acreage_amended.1 2⟩
